import Mathlib

/-!
# calculate_change

A verification development for `c_utility/calculate_change.c`.

The program reads two command-line arguments with `atof`, compares them as
C `double`s and prints either the shortfall or the change with `%.2f`.

The development has three layers:

* `Double`: IEEE 754 binary64 values with the operations `main` uses
  (`<`, `-`) and the ones the statements need (`>=`, `!=`, `fabs`);
* `atof` and `printf2f`: the two C library conversions `main` calls, as the
  C standard and glibc define them for the "C" locale and the default
  rounding mode (round to nearest, ties to even): both are correctly rounded
  on the exact value;
* `main`: the function of the source file, returning what was written to
  standard output and the exit status.

The sign of a NaN is the one point the C standard and IEEE 754 leave open.
The model follows x86-64: an invalid operation gives a NaN with the sign bit
set, which `printf` writes as `-nan`, and a NaN operand passes through an
operation unchanged.
-/

namespace CalculateChange

/-! ## C `double` -/

/-- A C `double` (IEEE 754 binary64).

A finite value is a sign and a magnitude; the magnitude is counted in units of
`2^-1074`, the smallest positive subnormal, of which every finite `double` is
an integer multiple. `fin false 0` is `+0.0`, `fin true 0` is `-0.0`.
`sign = true` means the sign bit is set. -/
inductive Double where
  | nan (sign : Bool)
  | inf (sign : Bool)
  | fin (sign : Bool) (mag : Nat)
  deriving DecidableEq

namespace Double

/-- Positive zero, the value of the literal `0.0`. -/
def zero : Double := fin false 0

/-- The magnitude `2^1024` in units of `2^-1074`: the first magnitude that is
no longer finite after rounding. -/
def overflowMag : Nat := 2 ^ 2098

/-- Quotient `a / b` rounded to the nearest integer, ties to even. -/
def roundHalfEven (a b : Nat) : Nat :=
  let q := a / b
  let r := a % b
  if 2 * r < b then q
  else if 2 * r = b then (if q % 2 = 0 then q else q + 1)
  else q + 1

/-- Halving `n` until it is below 2, at most `fuel` times, counting the
halvings. -/
def log2Fuel : Nat → Nat → Nat
  | 0, _ => 0
  | fuel + 1, n => if n < 2 then 0 else log2Fuel fuel (n / 2) + 1

/-- The position of the highest set bit of `n`: `2 ^ log2 n ≤ n < 2 ^ (log2 n + 1)`
for `n > 0`. -/
def log2 (n : Nat) : Nat := log2Fuel n n

/-- The magnitude `a / b` (in units of `2^-1074`) rounded to the nearest
magnitude with at most 53 significant bits, ties to even. Below `2^53` units
the spacing of doubles is one unit (subnormals and the first binade). -/
def roundMag (a b : Nat) : Nat :=
  let q0 := a / b
  let s := if q0 < 2 ^ 53 then 0 else log2 q0 - 52
  roundHalfEven a (b * 2 ^ s) * 2 ^ s

/-- The double of a sign and a rounded magnitude: overflow gives infinity. -/
def ofMag (sign : Bool) (m : Nat) : Double :=
  if m < overflowMag then fin sign m else inf sign

/-- The signed number of units of a finite value. -/
def units (sign : Bool) (mag : Nat) : Int :=
  if sign then -(mag : Int) else (mag : Int)

/-- C `isnan`. -/
def isNaN : Double → Bool
  | nan _ => true
  | _ => false

/-- C `isfinite`: neither an infinity nor a NaN. -/
def isFinite : Double → Bool
  | fin _ _ => true
  | _ => false

/-- C `x < y` on doubles: false when either operand is a NaN. -/
def lt : Double → Double → Bool
  | nan _, _ => false
  | _, nan _ => false
  | inf s, inf t => s && !t
  | inf s, fin _ _ => s
  | fin _ _, inf t => !t
  | fin s m, fin t n => decide (units s m < units t n)

/-- C `x >= y` on doubles: false when either operand is a NaN. -/
def ge : Double → Double → Bool
  | nan _, _ => false
  | _, nan _ => false
  | inf s, inf t => !s || t
  | inf s, fin _ _ => !s
  | fin _ _, inf t => t
  | fin s m, fin t n => decide (units t n ≤ units s m)

/-- C `x != y` on doubles: true when either operand is a NaN. -/
def ne : Double → Double → Bool
  | nan _, _ => true
  | _, nan _ => true
  | inf s, inf t => s != t
  | inf _, fin _ _ => true
  | fin _ _, inf _ => true
  | fin s m, fin t n => decide (units s m ≠ units t n)

/-- C `fabs`: clears the sign bit. -/
def fabs : Double → Double
  | nan _ => nan false
  | inf _ => inf false
  | fin _ m => fin false m

/-- C `x - y` on doubles, round to nearest, ties to even.

* A NaN operand is returned (the first one when both are NaNs).
* `inf - inf` of equal signs is invalid and gives the default NaN; its sign
  bit is set, as on x86-64.
* The difference of two finite values is an integer number of units; an exact
  zero is `+0.0` unless it is `(-0.0) - (+0.0)`. -/
def sub : Double → Double → Double
  | nan s, _ => nan s
  | _, nan t => nan t
  | inf s, inf t => if s = t then nan true else inf s
  | inf s, fin _ _ => inf s
  | fin _ _, inf t => inf (!t)
  | fin s m, fin t n =>
    let d := units s m - units t n
    if d = 0 then fin (s && !t) 0
    else ofMag (decide (d < 0)) (roundMag d.natAbs 1)

/-- Whether a magnitude, in units of `2^-1074`, is that of a finite binary64
value: below `2^1024`, and either below `2^53` units (where the spacing is one
unit) or a multiple of the spacing of its binade, `2 ^ (log2 m - 52)` units
(53 significant bits). -/
def representableMag (m : Nat) : Bool :=
  decide (m < overflowMag) && (decide (m < 2 ^ 53) || decide (m % 2 ^ (log2 m - 52) = 0))

/-- Whether a value of the model is a binary64 value. -/
def representable : Double → Bool
  | fin _ m => representableMag m
  | _ => true

end Double

/-! ## `printf("%.2f", x)` -/

/-- The decimal digit `d` as a character. -/
def digitChar (d : Nat) : Char := Char.ofNat (48 + d)

/-- The text `printf` writes for `%.2f`: the value rounded to hundredths
(ties to even, on the exact binary value), at least one digit before the
point, a leading `-` when the sign bit is set. -/
def printf2f : Double → String
  | Double.nan s => (if s then "-" else "") ++ "nan"
  | Double.inf s => (if s then "-" else "") ++ "inf"
  | Double.fin s m =>
    let cents := Double.roundHalfEven (m * 100) (2 ^ 1074)
    (if s then "-" else "") ++ Nat.repr (cents / 100) ++ "."
      ++ String.mk [digitChar (cents % 100 / 10), digitChar (cents % 10)]

/-! ## `atof` -/

/-- C `isspace` in the "C" locale: space, and `\t \n \v \f \r`. -/
def isspace (c : Char) : Bool :=
  c.toNat = 32 || (9 ≤ c.toNat && c.toNat ≤ 13)

/-- C `tolower` in the "C" locale. -/
def tolower (c : Char) : Char :=
  if 65 ≤ c.toNat ∧ c.toNat ≤ 90 then Char.ofNat (c.toNat + 32) else c

/-- The value of a decimal digit, `none` for any other character. -/
def digitValue (c : Char) : Option Nat :=
  if 48 ≤ c.toNat ∧ c.toNat ≤ 57 then some (c.toNat - 48) else none

/-- The value of a hexadecimal digit, `none` for any other character. -/
def hexValue (c : Char) : Option Nat :=
  if 48 ≤ c.toNat ∧ c.toNat ≤ 57 then some (c.toNat - 48)
  else if 97 ≤ (tolower c).toNat ∧ (tolower c).toNat ≤ 102 then
    some ((tolower c).toNat - 87)
  else none

/-- Skips leading white space. -/
def dropSpaces : List Char → List Char
  | [] => []
  | c :: cs => if isspace c then dropSpaces cs else c :: cs

/-- Splits off the longest run of leading digits (as their values). -/
def takeDigits (val : Char → Option Nat) : List Char → List Nat × List Char
  | [] => ([], [])
  | c :: cs =>
    match val c with
    | some d => (d :: (takeDigits val cs).1, (takeDigits val cs).2)
    | none => ([], c :: cs)

/-- The number written by a list of digits, most significant first. -/
def ofDigits (base : Nat) (ds : List Nat) : Nat :=
  ds.foldl (fun acc d => acc * base + d) 0

/-- Whether `cs` starts with the lower-case word `w`, ignoring case. -/
def startsWithWord (w : List Char) (cs : List Char) : Bool :=
  (cs.take w.length).map tolower == w

/-- A digit sequence that may contain one radix character `.`: the digits,
the number of digits after the point, and the rest of the input. `none` when
there is no digit at all. -/
def scanMantissa (val : Char → Option Nat) (cs : List Char) :
    Option (List Nat × Nat × List Char) :=
  let ip := takeDigits val cs
  let fp : List Nat × List Char :=
    match ip.2 with
    | '.' :: r => takeDigits val r
    | r => ([], r)
  if ip.1 ++ fp.1 = [] then none else some (ip.1 ++ fp.1, fp.1.length, fp.2)

/-- An optional exponent part: the marker (`e` or `p`, either case), an
optional sign and decimal digits. Without digits there is no exponent part
and the exponent is 0. -/
def scanExponent (marker : Char) : List Char → Int
  | [] => 0
  | c :: cs =>
    if tolower c = marker then
      match cs with
      | '-' :: ds => -((ofDigits 10 (takeDigits digitValue ds).1 : Nat) : Int)
      | '+' :: ds => ((ofDigits 10 (takeDigits digitValue ds).1 : Nat) : Int)
      | ds => ((ofDigits 10 (takeDigits digitValue ds).1 : Nat) : Int)
    else 0

/-- The double nearest to `± m * base ^ e` (correctly rounded, as glibc's
`strtod` does): overflow gives an infinity, underflow a subnormal or zero. -/
def scaled (sign : Bool) (m base : Nat) : Int → Double
  | Int.ofNat k => Double.ofMag sign (Double.roundMag (m * base ^ k * 2 ^ 1074) 1)
  | Int.negSucc k => Double.ofMag sign (Double.roundMag (m * 2 ^ 1074) (base ^ (k + 1)))

/-- A decimal floating constant: digits with an optional point and an optional
`e` exponent. -/
def parseDecimal (sign : Bool) (cs : List Char) : Option Double :=
  match scanMantissa digitValue cs with
  | some (ds, f, r) => some (scaled sign (ofDigits 10 ds) 10 (scanExponent 'e' r - (f : Int)))
  | none => none

/-- What follows the optional sign: `inf`/`infinity`, `nan`, a hexadecimal
constant `0x...` with an optional binary exponent `p`, or a decimal constant.
A `0x` without a hexadecimal digit after it is the decimal constant `0`. -/
def parseUnsigned (sign : Bool) (cs : List Char) : Option Double :=
  if startsWithWord ['i', 'n', 'f'] cs then some (Double.inf sign)
  else if startsWithWord ['n', 'a', 'n'] cs then some (Double.nan sign)
  else if startsWithWord ['0', 'x'] cs then
    match scanMantissa hexValue (cs.drop 2) with
    | some (ds, f, r) =>
      some (scaled sign (ofDigits 16 ds) 2 (scanExponent 'p' r - 4 * (f : Int)))
    | none => parseDecimal sign cs
  else parseDecimal sign cs

/-- The conversion of C `strtod`: white space is skipped, then the longest
initial part of the expected form is converted and what follows it is
ignored. `none` when no conversion can be performed. -/
def parseDouble (cs : List Char) : Option Double :=
  match dropSpaces cs with
  | '-' :: r => parseUnsigned true r
  | '+' :: r => parseUnsigned false r
  | r => parseUnsigned false r

/-- C `atof(s)`, that is `strtod(s, NULL)`: the converted value, and `0.0`
when no conversion can be performed. -/
def atof (s : String) : Double :=
  match parseDouble s.toList with
  | some v => v
  | none => Double.zero

/-! ## The program -/

/-- What a run leaves behind: the text written to standard output and the
exit status. -/
structure Result where
  out : String
  status : Int
  deriving DecidableEq

/-- The argument `argv[i]`. `main` reads `argv[1]` and `argv[2]` only after
checking `argc >= 3`. -/
def arg (argv : List String) (i : Nat) : String := argv.getD i ""

/-- The function `main` of `calculate_change.c`; `argc` is the length of
`argv`. -/
def main (argv : List String) : Result :=
  let argc := argv.length
  if argc < 3 then ⟨"Usage: calculate_change total amount\n", 1⟩
  else
    let total := atof (arg argv 1)
    let paid := atof (arg argv 2)
    if paid.lt total then
      ⟨"Insufficient: need " ++ printf2f (total.sub paid) ++ " more\n", 2⟩
    else
      ⟨"Change: " ++ printf2f (paid.sub total) ++ "\n", 0⟩

/-! ## Facts about `double` arithmetic -/

namespace Double

set_option exponentiation.threshold 4000
set_option maxRecDepth 100000

theorem lt_eq_false_of_ge {x y : Double} (h : x.ge y = true) : x.lt y = false := by
  rcases x with s | s | ⟨s, m⟩ <;> rcases y with t | t | ⟨t, n⟩ <;> simp [ge, lt] at h ⊢
  · rcases h with h | h <;> simp [h]
  · exact h
  · exact h
  · exact h

theorem lt_self (v : Double) : v.lt v = false := by
  rcases v with s | s | ⟨s, m⟩
  · rfl
  · cases s <;> rfl
  · simp [lt]

theorem two_pow_log2Fuel_le (fuel : Nat) : ∀ n : Nat, 0 < n → 2 ^ log2Fuel fuel n ≤ n := by
  induction fuel with
  | zero => intro n hn; simpa [log2Fuel] using hn
  | succ k ih =>
    intro n hn
    unfold log2Fuel
    split
    · simpa using hn
    · have h2 : 0 < n / 2 := Nat.div_pos (by omega) (by decide)
      have := ih (n / 2) h2
      rw [pow_succ]
      omega

theorem two_pow_log2_le {n : Nat} (hn : 0 < n) : 2 ^ log2 n ≤ n :=
  two_pow_log2Fuel_le n n hn

theorem div_le_roundHalfEven (a b : Nat) : a / b ≤ roundHalfEven a b := by
  unfold roundHalfEven
  simp only
  split
  · exact le_rfl
  · split
    · split
      · exact le_rfl
      · exact Nat.le_succ _
    · exact Nat.le_succ _

theorem roundMag_pos {n : Nat} (hn : 0 < n) : 0 < roundMag n 1 := by
  unfold roundMag
  simp only [Nat.div_one, one_mul]
  have key : ∀ s : Nat, 2 ^ s ≤ n → 0 < roundHalfEven n (2 ^ s) * 2 ^ s := by
    intro s hs
    have h1 : 0 < n / 2 ^ s := Nat.div_pos hs (by positivity)
    have h2 := div_le_roundHalfEven n (2 ^ s)
    have h3 : 0 < 2 ^ s := by positivity
    exact Nat.mul_pos (by omega) h3
  split
  · exact key 0 (by simpa using hn)
  · apply key
    calc 2 ^ (log2 n - 52) ≤ 2 ^ log2 n := Nat.pow_le_pow_right (by decide) (by omega)
      _ ≤ n := two_pow_log2_le hn

theorem isNaN_ofMag (s : Bool) (m : Nat) : (ofMag s m).isNaN = false := by
  unfold ofMag; split <;> rfl

theorem zero_lt_ofMag {m : Nat} (hm : 0 < m) : zero.lt (ofMag false m) = true := by
  unfold ofMag zero; split <;> simp [lt, units, hm]

theorem ofMag_ge_zero (m : Nat) : (ofMag false m).ge zero = true := by
  unfold ofMag zero; split <;> simp [ge, units]

theorem fabs_ofMag (s : Bool) (m : Nat) : (ofMag s m).fabs = ofMag false m := by
  unfold ofMag; split <;> rfl

theorem sub_self_of_isFinite {v : Double} (hv : v.isFinite = true) : v.sub v = zero := by
  rcases v with s | s | ⟨s, m⟩
  · simp [isFinite] at hv
  · simp [isFinite] at hv
  · simp [sub, zero]

/-- The shortfall is positive: `y < x` gives `0 < x - y`. -/
theorem zero_lt_sub_of_lt {x y : Double} (h : y.lt x = true) : zero.lt (x.sub y) = true := by
  rcases x with s | s | ⟨s, m⟩ <;> rcases y with t | t | ⟨t, n⟩ <;> simp [lt] at h
  · obtain ⟨rfl, rfl⟩ := h
    rfl
  · subst h; rfl
  · subst h; rfl
  · have hd : units s m - units t n ≠ 0 := by omega
    have hneg : ¬ units s m - units t n < 0 := by omega
    simp only [sub, hd, if_false, hneg, decide_False]
    apply zero_lt_ofMag
    apply roundMag_pos
    omega

/-- The change is a NaN or non-negative: when `x < y` is false, `x - y` is a
NaN or `x - y >= 0`. -/
theorem sub_ge_zero_of_not_lt {x y : Double} (h : x.lt y = false)
    (hnan : (x.sub y).isNaN = false) : (x.sub y).ge zero = true := by
  rcases x with s | s | ⟨s, m⟩ <;> rcases y with t | t | ⟨t, n⟩
  · simp [sub, isNaN] at hnan
  · simp [sub, isNaN] at hnan
  · simp [sub, isNaN] at hnan
  · simp [sub, isNaN] at hnan
  · cases s <;> cases t <;> first | rfl | simp [lt, sub, isNaN] at h hnan
  · cases s <;> first | rfl | simp [lt] at h
  · simp [sub, isNaN] at hnan
  · cases t <;> first | rfl | simp [lt] at h
  · have hle : units t n ≤ units s m := by simpa [lt] using h
    by_cases hd : units s m - units t n = 0
    · have hz : (fin s m).sub (fin t n) = fin (s && !t) 0 := by
        simp only [sub, hd, if_true]
      rw [hz]
      simp [ge, zero, units]
    · have hneg : ¬ units s m - units t n < 0 := by omega
      simp only [sub, hd, if_false, hneg, decide_False]
      exact ofMag_ge_zero _

/-- When `x - y` is a NaN: an operand is a NaN, or both are the same
infinity. -/
theorem isNaN_sub_iff (x y : Double) :
    (x.sub y).isNaN = true ↔
      (x.isNaN = true ∨ y.isNaN = true ∨ ∃ s, x = inf s ∧ y = inf s) := by
  rcases x with s | s | ⟨s, m⟩ <;> rcases y with t | t | ⟨t, n⟩
  · simp [sub, isNaN]
  · simp [sub, isNaN]
  · simp [sub, isNaN]
  · simp [sub, isNaN]
  · cases s <;> cases t <;> simp [sub, isNaN]
  · simp [sub, isNaN]
  · simp [sub, isNaN]
  · simp [sub, isNaN]
  · have h1 : ((fin s m).sub (fin t n)).isNaN = false := by
      simp only [sub]
      split
      · rfl
      · exact isNaN_ofMag _ _
    rw [h1]
    simp [isNaN]

/-- Two numbers that compare unequal are ordered one way and not the other. -/
theorem lt_or_gt_of_ne {x y : Double} (hx : x.isNaN = false) (hy : y.isNaN = false)
    (h : x.ne y = true) :
    (x.lt y = true ∧ y.lt x = false) ∨ (x.lt y = false ∧ y.lt x = true) := by
  rcases x with s | s | ⟨s, m⟩ <;> rcases y with t | t | ⟨t, n⟩
  · simp [isNaN] at hx
  · simp [isNaN] at hx
  · simp [isNaN] at hx
  · simp [isNaN] at hy
  · cases s <;> cases t <;> simp [ne, lt] at h ⊢
  · cases s <;> simp [lt]
  · simp [isNaN] at hy
  · cases t <;> simp [lt]
  · have hne : units s m ≠ units t n := by simpa [ne] using h
    simp only [lt, decide_eq_true_eq, decide_eq_false_iff_not]
    omega

/-- Subtraction the other way round has the same magnitude:
`|x - y|` is the larger operand minus the smaller one. -/
theorem fabs_sub_of_lt {x y : Double} (h : y.lt x = true) :
    (x.sub y).fabs = x.sub y ∧ (y.sub x).fabs = x.sub y := by
  rcases x with s | s | ⟨s, m⟩ <;> rcases y with t | t | ⟨t, n⟩ <;> simp [lt] at h
  · obtain ⟨rfl, rfl⟩ := h
    exact ⟨rfl, rfl⟩
  · subst h; exact ⟨rfl, rfl⟩
  · subst h; exact ⟨rfl, rfl⟩
  · have hd : units s m - units t n ≠ 0 := by omega
    have hd2 : units t n - units s m ≠ 0 := by omega
    have hneg : ¬ units s m - units t n < 0 := by omega
    have hneg2 : units t n - units s m < 0 := by omega
    have habs : (units t n - units s m).natAbs = (units s m - units t n).natAbs := by omega
    simp only [sub, hd, hd2, if_false, hneg, hneg2, decide_False, decide_True, fabs_ofMag, habs,
      and_self]

/-! ### The model stays within binary64 -/

theorem lt_two_pow_log2Fuel_succ (fuel : Nat) :
    ∀ n : Nat, n ≤ fuel → n < 2 ^ (log2Fuel fuel n + 1) := by
  induction fuel with
  | zero => intro n hn; simp [log2Fuel]; omega
  | succ k ih =>
    intro n hn
    unfold log2Fuel
    split
    · simpa using by omega
    · have h2 : n / 2 ≤ k := by omega
      have := ih (n / 2) h2
      rw [pow_succ]
      omega

theorem lt_two_pow_log2_succ (n : Nat) : n < 2 ^ (log2 n + 1) :=
  lt_two_pow_log2Fuel_succ n n le_rfl

theorem roundHalfEven_le_succ_div (a b : Nat) : roundHalfEven a b ≤ a / b + 1 := by
  unfold roundHalfEven
  simp only
  split
  · exact Nat.le_succ _
  · split
    · split
      · exact Nat.le_succ _
      · exact le_rfl
    · exact le_rfl

/-- The rounded magnitude is a significand of at most 53 bits (`2^53` itself
included, which is `2^52` one binade up) times a power of two. -/
theorem roundMag_eq_mul_two_pow (a b : Nat) :
    ∃ q s : Nat, q ≤ 2 ^ 53 ∧ roundMag a b = q * 2 ^ s := by
  unfold roundMag
  simp only
  split
  · rename_i h
    refine ⟨roundHalfEven a (b * 2 ^ 0), 0, ?_, rfl⟩
    have := roundHalfEven_le_succ_div a (b * 2 ^ 0)
    simp only [pow_zero, mul_one] at this ⊢
    omega
  · rename_i h
    refine ⟨roundHalfEven a (b * 2 ^ (log2 (a / b) - 52)), log2 (a / b) - 52, ?_, rfl⟩
    have h1 := roundHalfEven_le_succ_div a (b * 2 ^ (log2 (a / b) - 52))
    have h2 : a / (b * 2 ^ (log2 (a / b) - 52)) < 2 ^ 53 := by
      rw [← Nat.div_div_eq_div_mul]
      apply Nat.div_lt_of_lt_mul
      have h3 := lt_two_pow_log2_succ (a / b)
      have h4 : 52 ≤ log2 (a / b) := by
        by_contra hc
        have : 2 ^ (log2 (a / b) + 1) ≤ 2 ^ 53 := Nat.pow_le_pow_right (by decide) (by omega)
        omega
      have h5 : 2 ^ (log2 (a / b) - 52) * 2 ^ 53 = 2 ^ (log2 (a / b) + 1) := by
        rw [← pow_add]
        congr 1
        omega
      omega
    omega

theorem representableMag_mul_two_pow {q s : Nat} (hq : q ≤ 2 ^ 53)
    (hm : q * 2 ^ s < overflowMag) : representableMag (q * 2 ^ s) = true := by
  unfold representableMag
  simp only [hm, decide_True, Bool.true_and, Bool.or_eq_true, decide_eq_true_eq]
  by_cases hsmall : q * 2 ^ s < 2 ^ 53
  · exact Or.inl hsmall
  · right
    have hpos : 0 < q * 2 ^ s := by
      have : 0 < 2 ^ 53 := by positivity
      omega
    have hlo := two_pow_log2_le hpos
    have hhi := lt_two_pow_log2_succ (q * 2 ^ s)
    have h53 : 53 ≤ log2 (q * 2 ^ s) := by
      by_contra hc
      have : 2 ^ (log2 (q * 2 ^ s) + 1) ≤ 2 ^ 53 := Nat.pow_le_pow_right (by decide) (by omega)
      omega
    apply Nat.mod_eq_zero_of_dvd
    by_cases hks : log2 (q * 2 ^ s) - 52 ≤ s
    · exact Dvd.dvd.mul_left (pow_dvd_pow 2 hks) q
    · have h1 : q * 2 ^ s ≤ 2 ^ (53 + s) := by
        rw [pow_add]
        exact Nat.mul_le_mul_right _ hq
      have h2 : 2 ^ (53 + s) ≤ 2 ^ log2 (q * 2 ^ s) :=
        Nat.pow_le_pow_right (by decide) (by omega)
      have h3 : q * 2 ^ s = 2 ^ (53 + s) := by omega
      rw [h3] at hlo hhi ⊢
      have h4 : log2 (2 ^ (53 + s)) ≤ 53 + s :=
        (Nat.pow_le_pow_iff_right (by decide)).mp hlo
      exact pow_dvd_pow 2 (by omega)

theorem representable_ofMag_roundMag (sign : Bool) (a b : Nat) :
    (ofMag sign (roundMag a b)).representable = true := by
  unfold ofMag
  split
  · rename_i h
    obtain ⟨q, s, hq, hqs⟩ := roundMag_eq_mul_two_pow a b
    rw [hqs] at h ⊢
    exact representableMag_mul_two_pow hq h
  · rfl

theorem representableMag_zero : representableMag 0 = true := by
  have h := representableMag_mul_two_pow (q := 0) (s := 0) (by positivity)
    (by unfold overflowMag; positivity)
  simpa using h

/-- The difference of any two values is a binary64 value. -/
theorem representable_sub (x y : Double) : (x.sub y).representable = true := by
  rcases x with s | s | ⟨s, m⟩ <;> rcases y with t | t | ⟨t, n⟩
  · rfl
  · rfl
  · rfl
  · rfl
  · cases s <;> cases t <;> rfl
  · rfl
  · rfl
  · rfl
  · simp only [sub]
    split
    · exact representableMag_zero
    · exact representable_ofMag_roundMag _ _ _

end Double

/-! ## The three outcomes of `main` -/

set_option exponentiation.threshold 4000
set_option maxRecDepth 100000

theorem main_of_few_args (argv : List String) (h : argv.length < 3) :
    main argv = ⟨"Usage: calculate_change total amount\n", 1⟩ := by
  simp [main, h]

theorem main_of_lt (argv : List String) (h : 3 ≤ argv.length)
    (hlt : (atof (arg argv 2)).lt (atof (arg argv 1)) = true) :
    main argv = ⟨"Insufficient: need "
      ++ printf2f ((atof (arg argv 1)).sub (atof (arg argv 2))) ++ " more\n", 2⟩ := by
  have h3 : ¬ argv.length < 3 := by omega
  simp [main, h3, hlt]

theorem main_of_not_lt (argv : List String) (h : 3 ≤ argv.length)
    (hlt : (atof (arg argv 2)).lt (atof (arg argv 1)) = false) :
    main argv = ⟨"Change: "
      ++ printf2f ((atof (arg argv 2)).sub (atof (arg argv 1))) ++ "\n", 0⟩ := by
  have h3 : ¬ argv.length < 3 := by omega
  simp [main, h3, hlt]

theorem status_of_few_args (argv : List String) (h : argv.length < 3) :
    (main argv).status = 1 := by
  rw [main_of_few_args argv h]

theorem status_of_lt (argv : List String) (h : 3 ≤ argv.length)
    (hlt : (atof (arg argv 2)).lt (atof (arg argv 1)) = true) :
    (main argv).status = 2 := by
  rw [main_of_lt argv h hlt]

theorem status_of_not_lt (argv : List String) (h : 3 ≤ argv.length)
    (hlt : (atof (arg argv 2)).lt (atof (arg argv 1)) = false) :
    (main argv).status = 0 := by
  rw [main_of_not_lt argv h hlt]

theorem arg_set_self (argv : List String) (i : Nat) (s : String) (hi : i < argv.length) :
    arg (argv.set i s) i = s := by
  simp [arg, List.getD_eq_getElem?_getD, List.getElem?_set, hi]

theorem arg_set_of_ne (argv : List String) (i j : Nat) (s : String) (hij : i ≠ j) :
    arg (argv.set i s) j = arg argv j := by
  simp [arg, List.getD_eq_getElem?_getD, List.getElem?_set, hij]

theorem atof_of_parseDouble_eq_none (s : String) (h : parseDouble s.toList = none) :
    atof s = Double.zero := by
  unfold atof
  rw [h]

theorem main_congr (argvA argvB : List String)
    (hA : 3 ≤ argvA.length) (hB : 3 ≤ argvB.length)
    (htotal : atof (arg argvA 1) = atof (arg argvB 1))
    (hpaid : atof (arg argvA 2) = atof (arg argvB 2)) :
    main argvA = main argvB := by
  have nA : ¬ argvA.length < 3 := by omega
  have nB : ¬ argvB.length < 3 := by omega
  simp [main, nA, nB, htotal, hpaid]

theorem status_zero_or_two (argv : List String) (h : 3 ≤ argv.length) :
    (main argv).status = 0 ∨ (main argv).status = 2 := by
  cases hlt : (atof (arg argv 2)).lt (atof (arg argv 1))
  · exact Or.inl (status_of_not_lt argv h hlt)
  · exact Or.inr (status_of_lt argv h hlt)

theorem lt_of_status_two (argv : List String) (h : (main argv).status = 2) :
    3 ≤ argv.length ∧ (atof (arg argv 2)).lt (atof (arg argv 1)) = true := by
  by_cases hlen : argv.length < 3
  · rw [status_of_few_args argv hlen] at h
    exact absurd h (by decide)
  · have h3 : 3 ≤ argv.length := by omega
    cases hlt : (atof (arg argv 2)).lt (atof (arg argv 1))
    · rw [status_of_not_lt argv h3 hlt] at h
      exact absurd h (by decide)
    · exact ⟨h3, rfl⟩

theorem not_lt_of_status_zero (argv : List String) (h : (main argv).status = 0) :
    3 ≤ argv.length ∧ (atof (arg argv 2)).lt (atof (arg argv 1)) = false := by
  by_cases hlen : argv.length < 3
  · rw [status_of_few_args argv hlen] at h
    exact absurd h (by decide)
  · have h3 : 3 ≤ argv.length := by omega
    cases hlt : (atof (arg argv 2)).lt (atof (arg argv 1))
    · exact ⟨h3, rfl⟩
    · rw [status_of_lt argv h3 hlt] at h
      exact absurd h (by decide)

/-! ## `atof` returns binary64 values -/

theorem representable_scaled (sign : Bool) (m base : Nat) (e : Int) :
    (scaled sign m base e).representable = true := by
  cases e <;> exact Double.representable_ofMag_roundMag _ _ _

theorem representable_parseDecimal (sign : Bool) (cs : List Char) (v : Double)
    (h : parseDecimal sign cs = some v) : v.representable = true := by
  unfold parseDecimal at h
  split at h
  · cases h
    exact representable_scaled _ _ _ _
  · cases h

theorem representable_parseUnsigned (sign : Bool) (cs : List Char) (v : Double)
    (h : parseUnsigned sign cs = some v) : v.representable = true := by
  unfold parseUnsigned at h
  split at h
  · cases h; rfl
  · split at h
    · cases h; rfl
    · split at h
      · split at h
        · cases h
          exact representable_scaled _ _ _ _
        · exact representable_parseDecimal _ _ _ h
      · exact representable_parseDecimal _ _ _ h

/-- Every value `atof` returns is a binary64 value. -/
theorem representable_atof (s : String) : (atof s).representable = true := by
  unfold atof
  split
  · rename_i v h
    unfold parseDouble at h
    split at h <;> exact representable_parseUnsigned _ _ _ h
  · exact Double.representableMag_zero

/-! ## The claims -/

/-- C1: with at least two arguments whose parsed values satisfy `paid >= total`,
`main` prints exactly the line `Change: ` followed by `paid - total` formatted
with `%.2f` and a newline, and returns 0. -/
theorem change_when_paid_ge_total (argv : List String) (hargc : 3 ≤ argv.length)
    (hge : (atof (arg argv 2)).ge (atof (arg argv 1)) = true) :
    main argv = ⟨"Change: "
      ++ printf2f ((atof (arg argv 2)).sub (atof (arg argv 1))) ++ "\n", 0⟩ :=
  main_of_not_lt argv hargc (Double.lt_eq_false_of_ge hge)

/-- The scenario of C1: total 10.00, paid 15.00 prints `Change: 5.00`, exit 0. -/
theorem change_when_paid_ge_total_witness :
    3 ≤ ["calculate_change", "10.00", "15.00"].length
      ∧ (atof (arg ["calculate_change", "10.00", "15.00"] 2)).ge
          (atof (arg ["calculate_change", "10.00", "15.00"] 1)) = true
      ∧ main ["calculate_change", "10.00", "15.00"] = ⟨"Change: 5.00\n", 0⟩ :=
  ⟨by decide, by decide,
    (change_when_paid_ge_total ["calculate_change", "10.00", "15.00"]
      (by decide) (by decide)).trans (by decide)⟩

/-- C2: with at least two arguments whose parsed values satisfy `paid < total`,
`main` prints exactly the line `Insufficient: need `, then `total - paid`
formatted with `%.2f`, then ` more` and a newline, and returns 2. -/
theorem insufficient_when_paid_lt_total (argv : List String) (hargc : 3 ≤ argv.length)
    (hlt : (atof (arg argv 2)).lt (atof (arg argv 1)) = true) :
    main argv = ⟨"Insufficient: need "
      ++ printf2f ((atof (arg argv 1)).sub (atof (arg argv 2))) ++ " more\n", 2⟩ :=
  main_of_lt argv hargc hlt

/-- The scenario of C2: total 10.00, paid 7.50 prints
`Insufficient: need 2.50 more`, exit 2. -/
theorem insufficient_when_paid_lt_total_witness :
    3 ≤ ["calculate_change", "10.00", "7.50"].length
      ∧ (atof (arg ["calculate_change", "10.00", "7.50"] 2)).lt
          (atof (arg ["calculate_change", "10.00", "7.50"] 1)) = true
      ∧ main ["calculate_change", "10.00", "7.50"]
          = ⟨"Insufficient: need 2.50 more\n", 2⟩ :=
  ⟨by decide, by decide,
    (insufficient_when_paid_lt_total ["calculate_change", "10.00", "7.50"]
      (by decide) (by decide)).trans (by decide)⟩

/-- C3: with `argc < 3` (no argument or a single one, whatever it holds) `main`
writes the usage line and nothing else to standard output and returns 1. The
result is one constant: nothing in it comes from parsing or comparing an
argument. -/
theorem usage_when_few_args (argv : List String) (hargc : argv.length < 3) :
    main argv = ⟨"Usage: calculate_change total amount\n", 1⟩ :=
  main_of_few_args argv hargc

/-- C3 at a run with a single argument that would parse as a number. -/
theorem usage_when_few_args_witness :
    ["calculate_change", "12.50"].length < 3
      ∧ main ["calculate_change", "12.50"]
          = ⟨"Usage: calculate_change total amount\n", 1⟩ :=
  ⟨by decide, usage_when_few_args ["calculate_change", "12.50"] (by decide)⟩

/-- C4: the exit status classifies the run. It is 1 exactly when fewer than two
arguments were supplied (`argc < 3`); 2 exactly when the two arguments were
supplied (`argc >= 3`) and `paid < total`; 0 exactly when they were supplied
and `paid < total` is false; and it is never anything else. -/
theorem status_classifies (argv : List String) :
    ((main argv).status = 1 ↔ argv.length < 3)
      ∧ ((main argv).status = 2 ↔
          (3 ≤ argv.length ∧ (atof (arg argv 2)).lt (atof (arg argv 1)) = true))
      ∧ ((main argv).status = 0 ↔
          (3 ≤ argv.length ∧ ¬ (atof (arg argv 2)).lt (atof (arg argv 1)) = true))
      ∧ ((main argv).status = 0 ∨ (main argv).status = 1 ∨ (main argv).status = 2) := by
  by_cases h : argv.length < 3
  · have hs := status_of_few_args argv h
    simp only [hs]
    have h3 : ¬ 3 ≤ argv.length := by omega
    simp [h, h3]
  · have h3 : 3 ≤ argv.length := by omega
    cases hlt : (atof (arg argv 2)).lt (atof (arg argv 1))
    · have hs := status_of_not_lt argv h3 hlt
      simp only [hs]
      simp [h, h3]
    · have hs := status_of_lt argv h3 hlt
      simp only [hs]
      simp [h, h3]

/-- C5 (amended): when `total` and `paid` both parse to the same value `v`, `main`
takes the change branch (never the insufficient one) and returns 0. For every
finite `v` the line is `Change: 0.00`; for an infinity or a NaN the difference
`v - v` is a NaN and the line is `Change: nan` or `Change: -nan`. -/
theorem exact_payment (argv : List String) (v : Double) (hargc : 3 ≤ argv.length)
    (htotal : atof (arg argv 1) = v) (hpaid : atof (arg argv 2) = v) :
    main argv = ⟨"Change: " ++ printf2f (v.sub v) ++ "\n", 0⟩
      ∧ (v.isFinite = true → main argv = ⟨"Change: 0.00\n", 0⟩)
      ∧ (v.isFinite = false →
          (main argv = ⟨"Change: nan\n", 0⟩ ∨ main argv = ⟨"Change: -nan\n", 0⟩)) := by
  have hmain : main argv = ⟨"Change: " ++ printf2f (v.sub v) ++ "\n", 0⟩ := by
    have h := main_of_not_lt argv hargc (by rw [htotal, hpaid]; exact Double.lt_self v)
    rw [htotal, hpaid] at h
    exact h
  refine ⟨hmain, ?_, ?_⟩
  · intro hfin
    rw [hmain, Double.sub_self_of_isFinite hfin]
    decide
  · intro hfin
    rw [hmain]
    rcases v with s | s | ⟨s, m⟩
    · cases s
      · left; decide
      · right; decide
    · right
      cases s <;> decide
    · simp [Double.isFinite] at hfin

/-- The scenario of C5: total 5, paid 5 prints `Change: 0.00`, exit 0. -/
theorem exact_payment_witness :
    atof (arg ["calculate_change", "5", "5"] 1) = atof "5"
      ∧ (atof "5").isFinite = true
      ∧ main ["calculate_change", "5", "5"] = ⟨"Change: 0.00\n", 0⟩ :=
  ⟨by decide, by decide,
    (exact_payment ["calculate_change", "5", "5"] (atof "5") (by decide) (by decide)
      (by decide)).2.1 (by decide)⟩

/-- C5 as stated fails at `v = inf`: `atof` reads `inf` as positive infinity,
total and paid both parse to it, `main` returns 0, and the change `inf - inf`
is a NaN: the line printed is `Change: nan` or `Change: -nan` (by the sign of
that NaN), not `Change: 0.00`. -/
theorem exact_payment_counterexample :
    atof "inf" = Double.inf false
      ∧ atof (arg ["calculate_change", "inf", "inf"] 1) = atof "inf"
      ∧ atof (arg ["calculate_change", "inf", "inf"] 2) = atof "inf"
      ∧ (main ["calculate_change", "inf", "inf"]).status = 0
      ∧ ((atof "inf").sub (atof "inf")).isNaN = true
      ∧ ((main ["calculate_change", "inf", "inf"]).out = "Change: nan\n"
          ∨ (main ["calculate_change", "inf", "inf"]).out = "Change: -nan\n")
      ∧ (main ["calculate_change", "inf", "inf"]).out ≠ "Change: 0.00\n" := by
  decide

/-- C6: with two arguments, an argument without a parsable numeric prefix is
read as `0.0`, the run is the run with `"0"` in its place, and the exit status
is 0 or 2, never 1. -/
theorem malformed_is_zero (argv : List String) (i : Nat) (hargc : 3 ≤ argv.length)
    (hi : i = 1 ∨ i = 2) (hbad : parseDouble (arg argv i).toList = none) :
    atof (arg argv i) = Double.zero
      ∧ main argv = main (argv.set i "0")
      ∧ ((main argv).status = 0 ∨ (main argv).status = 2)
      ∧ (main argv).status ≠ 1 := by
  have hz : atof (arg argv i) = Double.zero := atof_of_parseDouble_eq_none _ hbad
  have h0 : atof "0" = Double.zero := by decide
  have hst := status_zero_or_two argv hargc
  refine ⟨hz, ?_, hst, ?_⟩
  · apply main_congr argv (argv.set i "0") hargc (by simpa using hargc)
    · rcases hi with rfl | rfl
      · rw [arg_set_self argv 1 "0" (by omega), hz, h0]
      · rw [arg_set_of_ne argv 2 1 "0" (by decide)]
    · rcases hi with rfl | rfl
      · rw [arg_set_of_ne argv 1 2 "0" (by decide)]
      · rw [arg_set_self argv 2 "0" (by omega), hz, h0]
  · rcases hst with h | h <;> rw [h] <;> decide

/-- The example of C6: total `abc`, paid `5` prints `Change: 5.00`, exit 0, as
total `0`, paid `5` does. -/
theorem malformed_is_zero_witness :
    parseDouble (arg ["calculate_change", "abc", "5"] 1).toList = none
      ∧ main ["calculate_change", "abc", "5"] = main ["calculate_change", "0", "5"]
      ∧ main ["calculate_change", "abc", "5"] = ⟨"Change: 5.00\n", 0⟩ :=
  ⟨by decide,
    (malformed_is_zero ["calculate_change", "abc", "5"] 1 (by decide) (Or.inl rfl)
      (by decide)).2.1,
    by decide⟩

/-- C7 (amended): for all parsed values with `paid < total`, the output is
`Insufficient: need ` concatenated with `total - paid` formatted with `%.2f`,
followed by ` more` and a newline, and the exit code is 2. -/
theorem insufficient_output (argv : List String) (total paid : Double)
    (hargc : 3 ≤ argv.length)
    (htotal : atof (arg argv 1) = total) (hpaid : atof (arg argv 2) = paid)
    (hlt : paid.lt total = true) :
    (main argv).out = ("Insufficient: need " ++ printf2f (total.sub paid)) ++ " more\n"
      ∧ (main argv).status = 2 := by
  subst htotal hpaid
  rw [main_of_lt argv hargc hlt]
  exact ⟨rfl, rfl⟩

/-- C7 (amended) at total 10.00, paid 7.50. -/
theorem insufficient_output_witness :
    (main ["calculate_change", "10.00", "7.50"]).out
        = ("Insufficient: need " ++ printf2f ((atof "10.00").sub (atof "7.50"))) ++ " more\n"
      ∧ (main ["calculate_change", "10.00", "7.50"]).status = 2 :=
  insufficient_output ["calculate_change", "10.00", "7.50"] (atof "10.00") (atof "7.50")
    (by decide) (by decide) (by decide) (by decide)

/-- C7 as stated fails at total 10.00, paid 7.50: `paid < total` holds and the
output is `Insufficient: need 2.50 more` with a newline, which is not
`Insufficient: need ` concatenated with the formatted shortfall, with or
without a newline after it. -/
theorem insufficient_output_counterexample :
    (atof "7.50").lt (atof "10.00") = true
      ∧ (main ["calculate_change", "10.00", "7.50"]).out = "Insufficient: need 2.50 more\n"
      ∧ (main ["calculate_change", "10.00", "7.50"]).out
          ≠ "Insufficient: need " ++ printf2f ((atof "10.00").sub (atof "7.50"))
      ∧ (main ["calculate_change", "10.00", "7.50"]).out
          ≠ "Insufficient: need " ++ printf2f ((atof "10.00").sub (atof "7.50")) ++ "\n" := by
  decide

/-- C8 (amended): whenever `main` returns 2, the line it prints is
`Insufficient: need ` with the shortfall `total - paid` formatted by `%.2f`
and ` more`, and that shortfall is strictly greater than zero; whenever `main`
returns 0, the line it prints is `Change: ` with the change `paid - total`
formatted by `%.2f`, and that change is either a NaN or greater than or equal
to zero (as C compares doubles, a negative zero included). The change is a NaN
exactly when a parsed value is a NaN or both are the same infinity. Negative
parsed values are covered. -/
theorem amount_not_negative (argv : List String) :
    ((main argv).status = 2 →
        (main argv = ⟨"Insufficient: need "
            ++ printf2f ((atof (arg argv 1)).sub (atof (arg argv 2))) ++ " more\n", 2⟩
          ∧ Double.zero.lt ((atof (arg argv 1)).sub (atof (arg argv 2))) = true))
      ∧ ((main argv).status = 0 →
          (main argv = ⟨"Change: "
              ++ printf2f ((atof (arg argv 2)).sub (atof (arg argv 1))) ++ "\n", 0⟩
            ∧ (((atof (arg argv 2)).sub (atof (arg argv 1))).isNaN = true
              ∨ ((atof (arg argv 2)).sub (atof (arg argv 1))).ge Double.zero = true)))
      ∧ (((atof (arg argv 2)).sub (atof (arg argv 1))).isNaN = true ↔
          ((atof (arg argv 2)).isNaN = true ∨ (atof (arg argv 1)).isNaN = true
            ∨ ∃ s, atof (arg argv 2) = Double.inf s ∧ atof (arg argv 1) = Double.inf s)) := by
  refine ⟨?_, ?_, Double.isNaN_sub_iff _ _⟩
  · intro h
    obtain ⟨hlen, hlt⟩ := lt_of_status_two argv h
    exact ⟨main_of_lt argv hlen hlt, Double.zero_lt_sub_of_lt hlt⟩
  · intro h
    obtain ⟨hlen, hlt⟩ := not_lt_of_status_zero argv h
    refine ⟨main_of_not_lt argv hlen hlt, ?_⟩
    cases hnan : ((atof (arg argv 2)).sub (atof (arg argv 1))).isNaN
    · exact Or.inr (Double.sub_ge_zero_of_not_lt hlt hnan)
    · exact Or.inl rfl

/-- C8 (amended) at negative amounts: total -3, paid -5 returns 2 and prints
`Insufficient: need 2.00 more`, a positive shortfall; total -5, paid -3
returns 0 and prints `Change: 2.00`, a non-negative change. -/
theorem amount_not_negative_witness :
    ((main ["calculate_change", "-3", "-5"]).status = 2
        ∧ main ["calculate_change", "-3", "-5"] = ⟨"Insufficient: need 2.00 more\n", 2⟩
        ∧ printf2f ((atof (arg ["calculate_change", "-3", "-5"] 1)).sub
            (atof (arg ["calculate_change", "-3", "-5"] 2))) = "2.00"
        ∧ Double.zero.lt ((atof (arg ["calculate_change", "-3", "-5"] 1)).sub
            (atof (arg ["calculate_change", "-3", "-5"] 2))) = true)
      ∧ ((main ["calculate_change", "-5", "-3"]).status = 0
        ∧ main ["calculate_change", "-5", "-3"] = ⟨"Change: 2.00\n", 0⟩
        ∧ printf2f ((atof (arg ["calculate_change", "-5", "-3"] 2)).sub
            (atof (arg ["calculate_change", "-5", "-3"] 1))) = "2.00"
        ∧ (((atof (arg ["calculate_change", "-5", "-3"] 2)).sub
              (atof (arg ["calculate_change", "-5", "-3"] 1))).isNaN = true
          ∨ ((atof (arg ["calculate_change", "-5", "-3"] 2)).sub
              (atof (arg ["calculate_change", "-5", "-3"] 1))).ge Double.zero = true)) :=
  ⟨⟨by decide,
      ((amount_not_negative ["calculate_change", "-3", "-5"]).1 (by decide)).1.trans
        (by decide),
      by decide,
      ((amount_not_negative ["calculate_change", "-3", "-5"]).1 (by decide)).2⟩,
    ⟨by decide,
      ((amount_not_negative ["calculate_change", "-5", "-3"]).2.1 (by decide)).1.trans
        (by decide),
      by decide,
      ((amount_not_negative ["calculate_change", "-5", "-3"]).2.1 (by decide)).2⟩⟩

/-- C8 as stated fails at total `nan`, paid `5`: `main` returns 0 and the line
it prints is `Change: ` with `paid - total` formatted by `%.2f`, which is
`Change: nan`; the printed change `paid - total` is a NaN, and
`paid - total >= 0` is false. -/
theorem amount_not_negative_counterexample :
    (main ["calculate_change", "nan", "5"]).status = 0
      ∧ main ["calculate_change", "nan", "5"]
          = ⟨"Change: " ++ printf2f ((atof (arg ["calculate_change", "nan", "5"] 2)).sub
              (atof (arg ["calculate_change", "nan", "5"] 1))) ++ "\n", 0⟩
      ∧ (main ["calculate_change", "nan", "5"]).out = "Change: nan\n"
      ∧ ((atof (arg ["calculate_change", "nan", "5"] 2)).sub
          (atof (arg ["calculate_change", "nan", "5"] 1))).isNaN = true
      ∧ ((atof (arg ["calculate_change", "nan", "5"] 2)).sub
          (atof (arg ["calculate_change", "nan", "5"] 1))).ge Double.zero = false := by
  decide

/-- C9 (amended): for two arguments `a`, `b` whose parsed values are numbers
(not NaNs) and compare unequal, exactly one of the runs (total `a`, paid `b`)
and (total `b`, paid `a`) returns 2 and the other returns 0, and both print the
same amount, the absolute difference `|a - b|` formatted with `%.2f`. -/
theorem swap_mirrors (prog a b : String) (rest : List String)
    (ha : (atof a).isNaN = false) (hb : (atof b).isNaN = false)
    (hne : (atof a).ne (atof b) = true) :
    (main (prog :: a :: b :: rest)
          = ⟨"Insufficient: need " ++ printf2f ((atof a).sub (atof b)).fabs ++ " more\n", 2⟩
        ∧ main (prog :: b :: a :: rest)
          = ⟨"Change: " ++ printf2f ((atof a).sub (atof b)).fabs ++ "\n", 0⟩)
      ∨ (main (prog :: a :: b :: rest)
          = ⟨"Change: " ++ printf2f ((atof a).sub (atof b)).fabs ++ "\n", 0⟩
        ∧ main (prog :: b :: a :: rest)
          = ⟨"Insufficient: need " ++ printf2f ((atof a).sub (atof b)).fabs ++ " more\n", 2⟩) := by
  have hlen1 : 3 ≤ (prog :: a :: b :: rest).length := by simp
  have hlen2 : 3 ≤ (prog :: b :: a :: rest).length := by simp
  have e1 : arg (prog :: a :: b :: rest) 1 = a := rfl
  have e2 : arg (prog :: a :: b :: rest) 2 = b := rfl
  have e3 : arg (prog :: b :: a :: rest) 1 = b := rfl
  have e4 : arg (prog :: b :: a :: rest) 2 = a := rfl
  rcases Double.lt_or_gt_of_ne ha hb hne with ⟨hab, hba⟩ | ⟨hab, hba⟩
  · -- a < b: the run with total a is paid in full, the swapped run is short
    right
    have hf := Double.fabs_sub_of_lt hab
    rw [hf.2]
    constructor
    · have h := main_of_not_lt (prog :: a :: b :: rest) hlen1 (by rw [e1, e2]; exact hba)
      rw [e1, e2] at h
      exact h
    · have h := main_of_lt (prog :: b :: a :: rest) hlen2 (by rw [e3, e4]; exact hab)
      rw [e3, e4] at h
      exact h
  · -- b < a: the run with total a is short, the swapped run is paid in full
    left
    have hf := Double.fabs_sub_of_lt hba
    rw [hf.1]
    constructor
    · have h := main_of_lt (prog :: a :: b :: rest) hlen1 (by rw [e1, e2]; exact hba)
      rw [e1, e2] at h
      exact h
    · have h := main_of_not_lt (prog :: b :: a :: rest) hlen2 (by rw [e3, e4]; exact hab)
      rw [e3, e4] at h
      exact h

/-- C9 (amended) at `a = 10.00`, `b = 7.50`: the run with total 10.00 returns
2, the swapped run returns 0, and both print the amount 2.50. -/
theorem swap_mirrors_witness :
    (atof "10.00").isNaN = false ∧ (atof "7.50").isNaN = false
      ∧ (atof "10.00").ne (atof "7.50") = true
      ∧ printf2f ((atof "10.00").sub (atof "7.50")).fabs = "2.50"
      ∧ ((main ["calculate_change", "10.00", "7.50"]
            = ⟨"Insufficient: need "
                ++ printf2f ((atof "10.00").sub (atof "7.50")).fabs ++ " more\n", 2⟩
          ∧ main ["calculate_change", "7.50", "10.00"]
            = ⟨"Change: " ++ printf2f ((atof "10.00").sub (atof "7.50")).fabs ++ "\n", 0⟩)
        ∨ (main ["calculate_change", "10.00", "7.50"]
            = ⟨"Change: " ++ printf2f ((atof "10.00").sub (atof "7.50")).fabs ++ "\n", 0⟩
          ∧ main ["calculate_change", "7.50", "10.00"]
            = ⟨"Insufficient: need "
                ++ printf2f ((atof "10.00").sub (atof "7.50")).fabs ++ " more\n", 2⟩)) :=
  ⟨by decide, by decide, by decide, by decide,
    swap_mirrors "calculate_change" "10.00" "7.50" [] (by decide) (by decide) (by decide)⟩

/-- C9 as stated fails at `a = nan`, `b = 1`: the parsed values differ (a NaN
compares unequal to everything), and both runs return 0; neither returns 2. -/
theorem swap_mirrors_counterexample :
    (atof "nan").ne (atof "1") = true
      ∧ atof "nan" ≠ atof "1"
      ∧ main ["calculate_change", "nan", "1"] = ⟨"Change: nan\n", 0⟩
      ∧ main ["calculate_change", "1", "nan"] = ⟨"Change: nan\n", 0⟩ := by
  decide

/-- C10: two runs with at least two arguments that agree on `argv[1]` and
`argv[2]` print the same line and return the same status, whatever `argv[0]`
and the arguments after the second are. -/
theorem extra_args_ignored (argvA argvB : List String)
    (hA : 3 ≤ argvA.length) (hB : 3 ≤ argvB.length)
    (htotal : arg argvA 1 = arg argvB 1) (hpaid : arg argvA 2 = arg argvB 2) :
    main argvA = main argvB := by
  have nA : ¬ argvA.length < 3 := by omega
  have nB : ¬ argvB.length < 3 := by omega
  simp [main, nA, nB, htotal, hpaid]

/-- C10 at two runs that differ in the program name and in the extra
arguments. -/
theorem extra_args_ignored_witness :
    main ["calculate_change", "10.00", "7.50"]
      = main ["./a.out", "10.00", "7.50", "15.00", "junk"] :=
  extra_args_ignored ["calculate_change", "10.00", "7.50"]
    ["./a.out", "10.00", "7.50", "15.00", "junk"] (by decide) (by decide) (by decide) (by decide)

end CalculateChange
